import Mathlib

/-
Verification of the AI-search chat client's core interactive logic.

The TypeScript source renders tool invocations of a chat transcript
(src/app/page.tsx), one card per invocation (src/components/ToolCallCard.tsx),
with an editable parameter panel (src/components/ParameterDisplay.tsx).

Shallow embedding conventions:
  * a JavaScript string is modelled as its character sequence, `List Char`;
  * a JavaScript argument object (`Record<string, unknown>`) is modelled as an
    association list from key to `Value`; a key holding `undefined` is modelled
    as the key being absent, which is observationally equivalent here because
    the source reads arguments only through accesses that treat a missing key
    and an `undefined` value alike (`value !== undefined` guards, truthiness
    tests, and property reads that yield `undefined` for missing keys);
  * React `useState` cells of a component instance are gathered into a state
    record, and each handler becomes a function from state (and its inputs) to
    the next state, paired with the list of `onRerun` dispatches it emits.
-/

namespace AISearch

/-- Shorthand: a JavaScript string literal as its character list. -/
def js (s : String) : List Char := s.data

/-- An `unknown` JavaScript value as it occurs in tool arguments:
string, number, boolean, array of strings, or null.  `undefined` is
represented by `Option.none` at use sites. -/
inductive Value where
  | vStr : List Char → Value
  | vNum : Int → Value
  | vBool : Bool → Value
  | vArr : List (List Char) → Value
  | vNull : Value
deriving DecidableEq

/-- An argument object `Record<string, unknown>`: key/value association list. -/
abbrev ArgumentSet := List (List Char × Value)

/-- JavaScript property read `args[key]`: the value under the first matching
key, `none` (undefined) when the key is absent. -/
def argLookup (args : ArgumentSet) (k : List Char) : Option Value :=
  match args.find? (fun p => p.1 == k) with
  | some p => some p.2
  | none => none

/-- JavaScript truthiness of an argument value (`undefined`, `null`, `""`,
`0` and `false` are falsy; every array, even the empty one, is truthy). -/
def jsTruthy : Option Value → Bool
  | none => false
  | some Value.vNull => false
  | some (Value.vStr s) => !(s == [])
  | some (Value.vNum n) => !(n == 0)
  | some (Value.vBool b) => b
  | some (Value.vArr _) => true

/-- JavaScript string coercion of an argument value, as produced by a
template literal interpolation. -/
def jsToString : Option Value → List Char
  | none => js "undefined"
  | some Value.vNull => js "null"
  | some (Value.vStr s) => s
  | some (Value.vNum n) => (toString n).data
  | some (Value.vBool b) => if b then js "true" else js "false"
  | some (Value.vArr l) => List.intercalate (js ",") l

/-- JavaScript `s.startsWith(pre)`. -/
def jsStartsWith (s pre : List Char) : Bool :=
  List.isPrefixOf pre s

/-- Auxiliary for `jsReplace`: replace the first occurrence of the non-empty
pattern `pat` by `repl`, scanning left to right. -/
def replaceFirstAux (pat repl : List Char) : List Char → List Char
  | [] => []
  | c :: rest =>
    if List.isPrefixOf pat (c :: rest) then repl ++ (c :: rest).drop pat.length
    else c :: replaceFirstAux pat repl rest

/-- JavaScript `s.replace(pat, repl)` with string arguments: replaces only the
FIRST occurrence of `pat` (an empty pattern matches at the start). -/
def jsReplace (s pat repl : List Char) : List Char :=
  match pat with
  | [] => repl ++ s
  | _ :: _ => replaceFirstAux pat repl s

/-- JavaScript `s.includes(pat)`: substring containment. -/
def jsIncludes (s pat : List Char) : Bool :=
  match s with
  | [] => List.isPrefixOf pat []
  | c :: rest => List.isPrefixOf pat (c :: rest) || jsIncludes rest pat

/-- JavaScript `String.prototype.trim()`: strip leading and trailing
whitespace. -/
def jsTrim (s : List Char) : List Char :=
  ((s.dropWhile Char.isWhitespace).reverse.dropWhile Char.isWhitespace).reverse

/-- Auxiliary for `jsSplitComma`: accumulates the current segment reversed. -/
def jsSplitCommaAux : List Char → List Char → List (List Char)
  | [], acc => [acc.reverse]
  | c :: rest, acc =>
    if c == ',' then acc.reverse :: jsSplitCommaAux rest []
    else jsSplitCommaAux rest (c :: acc)

/-- JavaScript `s.split(',')`. -/
def jsSplitComma (s : List Char) : List (List Char) :=
  jsSplitCommaAux s []

/-- JavaScript `arr.join(sep)` restricted to arrays of strings (the only use
in the source; calling `join` on a non-array would throw in JavaScript and is
outside the modelled, schema-typed domain). -/
def jsJoin (sep : List Char) : Option Value → List Char
  | some (Value.vArr l) => List.intercalate sep l
  | _ => []

/-- JavaScript `(value as string[]).length > 0`: arrays and strings have a
numeric `length`; on any other value `.length` is `undefined` and the
comparison is false. -/
def jsLengthPos : Option Value → Bool
  | some (Value.vArr l) => 0 < l.length
  | some (Value.vStr s) => 0 < s.length
  | _ => false

/- Section: ParameterDisplay.tsx -/

/-- ParameterDisplay `handleChange`: `onChange(\x7b ...args, [key]: value \x7d)`.
Storing `undefined` (`none`) leaves the key observationally absent (see the
file-level convention), so it is modelled as removal. -/
def handleChange (args : ArgumentSet) (k : List Char) (v : Option Value) :
    ArgumentSet :=
  match v with
  | some x => args.filter (fun p => !(p.1 == k)) ++ [(k, x)]
  | none => args.filter (fun p => !(p.1 == k))

/-- ParameterDisplay `isParamUsed`:
`value !== undefined && value !== null && value !== ''`. -/
def isParamUsed (args : ArgumentSet) (k : List Char) : Bool :=
  match argLookup args k with
  | none => false
  | some Value.vNull => false
  | some (Value.vStr s) => !(s == [])
  | some _ => true

/-- ParameterDisplay `renderInput`, `array` case, `onChange` handler:
`e.target.value.split(',').map(s => s.trim()).filter(s => s.length > 0)`. -/
def parseArrayInput (text : List Char) : List (List Char) :=
  ((jsSplitComma text).map jsTrim).filter (fun s => 0 < s.length)

/-- The full `array`-case `onChange` handler: parse the text field, then
`handleChange(param.key, arr.length > 0 ? arr : undefined)`. -/
def arrayInputChange (args : ArgumentSet) (k : List Char) (text : List Char) :
    ArgumentSet :=
  let arr := parseArrayInput text
  handleChange args k (if 0 < arr.length then some (Value.vArr arr) else none)

/- Section: page.tsx: conversation mapper and status projection -/

/-- A raw streamed message part, loosely typed as at the transport boundary:
every field other than the discriminant tag `type` may be missing
(`none` models a missing / `undefined` field; a falsy `input` is likewise
`none`, since `toolPart.input || \x7b\x7d` treats all falsy inputs alike). -/
structure Part where
  type : List Char
  toolName : Option (List Char)
  toolCallId : Option (List Char)
  input : Option ArgumentSet
  state : Option (List Char)
  output : Option Value
  errorText : Option (List Char)
deriving DecidableEq

/-- The record produced by `getToolInvocations` for one tool part. -/
structure Invocation where
  toolCallId : Option (List Char)
  toolName : Option (List Char)
  args : ArgumentSet
  state : Option (List Char)
  result : Option Value
  errorText : Option (List Char)
deriving DecidableEq

/-- page.tsx filter predicate:
`part.type.startsWith("tool-") || part.type === "dynamic-tool"`. -/
def isToolPart (p : Part) : Bool :=
  jsStartsWith p.type (js "tool-") || p.type == js "dynamic-tool"

/-- page.tsx map step of `getToolInvocations`: extract the invocation record
from one tool part. -/
def mapToolPart (p : Part) : Invocation :=
  let isStaticTool :=
    jsStartsWith p.type (js "tool-") && !(p.type == js "dynamic-tool")
  { toolCallId := p.toolCallId
    toolName :=
      if isStaticTool then some (jsReplace p.type (js "tool-") []) else p.toolName
    args := p.input.getD []
    state := p.state
    result := p.output
    errorText := p.errorText }

/-- page.tsx `getToolInvocations` applied to a message's parts. -/
def getToolInvocations (parts : List Part) : List Invocation :=
  (parts.filter isToolPart).map mapToolPart

/-- page.tsx `getToolStatus`.  The parameter is declared `string` in the
source but the call site passes the part's raw `state`, which may be
`undefined` (`none`); `undefined` matches none of the string comparisons. -/
def getToolStatus (state : Option (List Char)) : List Char :=
  if state == some (js "output-available") then js "completed"
  else if state == some (js "output-error") then js "error"
  else if state == some (js "input-available") then js "running"
  else if state == some (js "input-streaming") then js "running"
  else js "pending"

/- Section: ToolCallCard.tsx: per-card state machine -/

/-- The `useState` cells of one ToolCallCard instance. -/
structure CardState where
  isExpanded : Bool
  isResultExpanded : Bool
  editedArgs : ArgumentSet
  hasUnsavedChanges : Bool
deriving DecidableEq

/-- ToolCallCard `useEffect` body, run on each change of the upstream `args`
prop: `if (!hasUnsavedChanges) setEditedArgs(args)`. -/
def syncUpstreamArgs (s : CardState) (args : ArgumentSet) : CardState :=
  if s.hasUnsavedChanges then s else { s with editedArgs := args }

/-- ToolCallCard `handleRerun`: when an `onRerun` callback is present, invoke
it with the edit buffer and clear the dirty flag.  The second component lists
the dispatched argument sets. -/
def handleRerun (hasOnRerun : Bool) (s : CardState) :
    CardState × List ArgumentSet :=
  if hasOnRerun then ({ s with hasUnsavedChanges := false }, [s.editedArgs])
  else (s, [])

/-- ToolCallCard `handleArgsChange`: store the new arguments and mark the
session dirty. -/
def handleArgsChange (s : CardState) (newArgs : ArgumentSet) : CardState :=
  { s with editedArgs := newArgs, hasUnsavedChanges := true }

/-- ToolCallCard `handleDoneEditing`: auto-trigger a re-run when the session
is dirty. -/
def handleDoneEditing (hasOnRerun : Bool) (s : CardState) :
    CardState × List ArgumentSet :=
  if s.hasUnsavedChanges then handleRerun hasOnRerun s else (s, [])

/-- Combined state of a card together with its embedded ParameterDisplay's
`editMode` cell. -/
structure PanelState where
  card : CardState
  editMode : Bool
deriving DecidableEq

/-- ParameterDisplay edit-toggle button: flip `editMode`; when transitioning
from edit mode to view mode, fire `onDoneEditing` (wired by ToolCallCard to
`handleDoneEditing`). -/
def toggleEditMode (hasOnRerun : Bool) (p : PanelState) :
    PanelState × List ArgumentSet :=
  if p.editMode then
    let r := handleDoneEditing hasOnRerun p.card
    ({ p with editMode := false, card := r.1 }, r.2)
  else ({ p with editMode := true }, [])

/-- The user/transport events that drive one card's state. -/
inductive PanelEvent where
  | upstreamArgs (args : ArgumentSet)
  | paramChange (args : ArgumentSet)
  | toggleEdit
  | rerunClick
deriving DecidableEq

/-- One event step of a card, returning the next state and the re-run
dispatches it emitted. -/
def stepEvent (hasOnRerun : Bool) (p : PanelState) :
    PanelEvent → PanelState × List ArgumentSet
  | PanelEvent.upstreamArgs a => ({ p with card := syncUpstreamArgs p.card a }, [])
  | PanelEvent.paramChange a => ({ p with card := handleArgsChange p.card a }, [])
  | PanelEvent.toggleEdit => toggleEditMode hasOnRerun p
  | PanelEvent.rerunClick =>
    let r := handleRerun hasOnRerun p.card
    ({ p with card := r.1 }, r.2)

/-- Run a sequence of events, concatenating all re-run dispatches in order. -/
def runEvents (hasOnRerun : Bool) (p : PanelState) :
    List PanelEvent → PanelState × List ArgumentSet
  | [] => (p, [])
  | e :: es =>
    let r := stepEvent hasOnRerun p e
    let rest := runEvents hasOnRerun r.1 es
    (rest.1, r.2 ++ rest.2)

/- Section: ToolCallCard.tsx: collapsed-view summary chips and result panel -/

/-- `getParamsSummary` line `if (args.type && args.type !== 'auto')`. -/
def typeChip (args : ArgumentSet) : List (List Char) :=
  if jsTruthy (argLookup args (js "type"))
      && !(argLookup args (js "type") == some (Value.vStr (js "auto"))) then
    [js "type: " ++ jsToString (argLookup args (js "type"))]
  else []

/-- `getParamsSummary` line `if (args.category)`. -/
def categoryChip (args : ArgumentSet) : List (List Char) :=
  if jsTruthy (argLookup args (js "category")) then
    [js "category: " ++ jsToString (argLookup args (js "category"))]
  else []

/-- `getParamsSummary` line `if (args.numResults && args.numResults !== 5)`. -/
def numResultsChip (args : ArgumentSet) : List (List Char) :=
  if jsTruthy (argLookup args (js "numResults"))
      && !(argLookup args (js "numResults") == some (Value.vNum 5)) then
    [js "results: " ++ jsToString (argLookup args (js "numResults"))]
  else []

/-- `getParamsSummary` line
`if (args.includeDomains && (args.includeDomains as string[]).length > 0)`. -/
def domainsChip (args : ArgumentSet) : List (List Char) :=
  if jsTruthy (argLookup args (js "includeDomains"))
      && jsLengthPos (argLookup args (js "includeDomains")) then
    [js "domains: " ++ jsJoin (js ", ") (argLookup args (js "includeDomains"))]
  else []

/-- `getParamsSummary` line
`if (args.startPublishedDate || args.endPublishedDate)`. -/
def dateChip (args : ArgumentSet) : List (List Char) :=
  if jsTruthy (argLookup args (js "startPublishedDate"))
      || jsTruthy (argLookup args (js "endPublishedDate")) then
    [js "date filter"]
  else []

/-- ToolCallCard `getParamsSummary`: the chips pushed, in source order. -/
def getParamsSummary (args : ArgumentSet) : List (List Char) :=
  typeChip args ++ categoryChip args ++ numResultsChip args
    ++ domainsChip args ++ dateChip args

/-- A chip is a numResults chip when it carries the `results: ` label. -/
def isResultsChip (c : List Char) : Bool :=
  List.isPrefixOf (js "results: ") c

/-- The truncation span's content, exactly as written at
ToolCallCard.tsx line 240: a single-quoted PLAIN string literal, so the
braced expression inside it is NOT interpolated but rendered verbatim. -/
def truncationNotice : List Char :=
  js "\n\n... truncated (\x7bresult.length - 2000\x7d more characters)"

/-- The expanded result panel's text: `result.slice(0, 2000)` followed by the
truncation span when `result.length > 2000`. -/
def resultPanelText (result : List Char) : List Char :=
  result.take 2000 ++ (if 2000 < result.length then truncationNotice else [])


/- Section: Concrete instances used by the theorems and witnesses below -/

def c3Part : Part :=
  { type := js "tool-exa_search"
    toolName := none
    toolCallId := some (js "call_1")
    input := some [(js "query", Value.vStr (js "rust ownership"))]
    state := some (js "input-available")
    output := none
    errorText := none }
def c9ZeroArgs : ArgumentSet :=
  [(js "query", Value.vStr (js "rust")), (js "numResults", Value.vNum 0)]
def c1Result : List Char := List.replicate 2500 'x'
def wArgsA : ArgumentSet := [(js "query", Value.vStr (js "old"))]

def wArgsB : ArgumentSet := [(js "query", Value.vStr (js "new"))]

def wCardDirty : CardState :=
  { isExpanded := true, isResultExpanded := false, editedArgs := wArgsA,
    hasUnsavedChanges := true }

def wCardClean : CardState := { wCardDirty with hasUnsavedChanges := false }

def wPanelClean : PanelState := { card := wCardClean, editMode := false }

def wPanelEdit : PanelState := { card := wCardDirty, editMode := true }

def wDynPart : Part :=
  { type := js "dynamic-tool"
    toolName := some (js "exa_contents")
    toolCallId := some (js "call_2")
    input := none
    state := none
    output := none
    errorText := none }

def wTenArgs : ArgumentSet := [(js "numResults", Value.vNum 10)]

def wFiveArgs : ArgumentSet := [(js "numResults", Value.vNum 5)]


theorem argLookup_handleChange (args : ArgumentSet) (k : List Char)
    (v : Option Value) : argLookup (handleChange args k v) k = v := by
  have hfilter :
      List.find? (fun p => p.1 == k) (args.filter (fun p => !(p.1 == k))) = none := by
    rw [List.find?_eq_none]
    intro x hx
    have := (List.mem_filter.mp hx).2
    simpa using this
  cases v with
  | none => simp [handleChange, argLookup, hfilter]
  | some x => simp [handleChange, argLookup, List.find?_append, hfilter, List.find?]

/-- C5: a key is classified unused exactly when its value is undefined
(absent), null, or the empty string; explicit `false` and `0` are used. -/
theorem c5_unused_classification (args : ArgumentSet) (k : List Char) :
    (isParamUsed args k = false ↔
      argLookup args k = none ∨ argLookup args k = some Value.vNull ∨
        argLookup args k = some (Value.vStr [])) ∧
    (argLookup args k = some (Value.vBool false) → isParamUsed args k = true) ∧
    (argLookup args k = some (Value.vNum 0) → isParamUsed args k = true) := by
  refine ⟨?_, ?_, ?_⟩
  · unfold isParamUsed
    cases h : argLookup args k with
    | none => simp
    | some v => cases v <;> simp_all
  · intro h; simp [isParamUsed, h]
  · intro h; simp [isParamUsed, h]

/-- C6: the displayStatus projection is total on lifecycle-state strings. -/
theorem c6_status_projection (s : List Char) :
    ((s = js "input-streaming" ∨ s = js "input-available") →
      getToolStatus (some s) = js "running") ∧
    (s = js "output-available" → getToolStatus (some s) = js "completed") ∧
    (s = js "output-error" → getToolStatus (some s) = js "error") ∧
    (s ≠ js "input-streaming" → s ≠ js "input-available" →
      s ≠ js "output-available" → s ≠ js "output-error" →
      getToolStatus (some s) = js "pending") := by
  refine ⟨?_, ?_, ?_, ?_⟩
  · rintro (rfl | rfl) <;> decide
  · rintro rfl; decide
  · rintro rfl; decide
  · intro h1 h2 h3 h4
    simp [getToolStatus, h1, h2, h3, h4]

/-- C2: an upstream arguments update leaves a dirty edit buffer untouched and
resets a clean one to mirror the new arguments. -/
theorem c2_upstream_sync (s : CardState) (args : ArgumentSet) :
    (s.hasUnsavedChanges = true → syncUpstreamArgs s args = s) ∧
    (s.hasUnsavedChanges = false →
      (syncUpstreamArgs s args).editedArgs = args) := by
  unfold syncUpstreamArgs
  constructor <;> intro h <;> simp [h]

/-- C4: entering `"a, b, b"` in an array field stores `["a","b","b"]`, and an
input whose segments are all empty removes the key. -/
theorem c4_array_roundtrip (args : ArgumentSet) (k text : List Char)
    (ht : parseArrayInput text = []) :
    argLookup (arrayInputChange args k (js "a, b, b")) k =
      some (Value.vArr [js "a", js "b", js "b"]) ∧
    argLookup (arrayInputChange args k text) k = none := by
  constructor
  · have hparse : parseArrayInput (js "a, b, b") = [js "a", js "b", js "b"] := by
      decide
    rw [arrayInputChange]
    simp [hparse, argLookup_handleChange]
  · rw [arrayInputChange]
    simp [ht, argLookup_handleChange]

/-- C7: toggling edit mode on then off with a clean session leaves the card
state (hence the argument set) unchanged and dispatches no re-run. -/
theorem c7_toggle_noop (hasOnRerun : Bool) (p : PanelState)
    (hclean : p.card.hasUnsavedChanges = false) (hview : p.editMode = false) :
    (toggleEditMode hasOnRerun (toggleEditMode hasOnRerun p).1).1.card = p.card ∧
    (toggleEditMode hasOnRerun p).2 = [] ∧
    (toggleEditMode hasOnRerun (toggleEditMode hasOnRerun p).1).2 = [] := by
  unfold toggleEditMode handleDoneEditing
  simp [hview, hclean]


theorem replaceFirstAux_of_startsWith (pat repl s : List Char) (hne : pat ≠ [])
    (h : List.isPrefixOf pat s = true) :
    replaceFirstAux pat repl s = repl ++ s.drop pat.length := by
  cases s with
  | nil =>
    cases pat with
    | nil => exact absurd rfl hne
    | cons a as => simp [List.isPrefixOf] at h
  | cons c rest => rw [replaceFirstAux, if_pos h]

theorem jsReplace_strip_tool (s : List Char)
    (h : jsStartsWith s (js "tool-") = true) :
    jsReplace s (js "tool-") [] = s.drop 5 := by
  have h0 : jsReplace s (js "tool-") [] = replaceFirstAux (js "tool-") [] s := rfl
  rw [h0, replaceFirstAux_of_startsWith _ _ _ (by decide) h]
  rfl

theorem startsTool_ne_dynamic (s : List Char)
    (h : jsStartsWith s (js "tool-") = true) :
    (s == js "dynamic-tool") = false := by
  rw [jsStartsWith, List.isPrefixOf_iff_prefix] at h
  obtain ⟨t, rfl⟩ := h
  rw [beq_eq_false_iff_ne]
  intro heq
  exact absurd (congrArg (fun l => l.headD 'z') heq : ('t' : Char) = 'd') (by decide)


/-- C3: the mapper emits one invocation per tool part, in order; a tag
starting with "tool-" yields the tag minus the prefix as tool name, the
"dynamic-tool" tag takes the name from the part's toolName field; the
tool-exa_search scenario maps to exa_search / running. -/
theorem c3_mapper (parts : List Part) (p q : Part)
    (hp : jsStartsWith p.type (js "tool-") = true)
    (hq : q.type = js "dynamic-tool") :
    getToolInvocations parts =
      (parts.filter (fun r => jsStartsWith r.type (js "tool-")
          || r.type == js "dynamic-tool")).map mapToolPart ∧
    (mapToolPart p).toolName = some (p.type.drop 5) ∧
    (mapToolPart q).toolName = q.toolName ∧
    (mapToolPart c3Part).toolName = some (js "exa_search") ∧
    getToolStatus (mapToolPart c3Part).state = js "running" := by
  refine ⟨rfl, ?_, ?_, by decide, by decide⟩
  · rw [mapToolPart]
    simp [hp, startsTool_ne_dynamic p.type hp, jsReplace_strip_tool p.type hp]
  · rw [mapToolPart]
    simp [hq]

/-- C8: a tool part with no (or falsy) input maps to empty arguments;
result and error text pass through as optional values, and a missing
lifecycle state projects to the pending status. -/
theorem c8_safe_defaults (p : Part) (hin : p.input = none) :
    (mapToolPart p).args = [] ∧
    (mapToolPart p).result = p.output ∧
    (mapToolPart p).errorText = p.errorText ∧
    (p.state = none → getToolStatus (mapToolPart p).state = js "pending") := by
  refine ⟨?_, rfl, rfl, ?_⟩
  · simp [mapToolPart, hin]
  · intro hs
    rw [show (mapToolPart p).state = p.state from rfl, hs]
    decide


theorem isResultsChip_cons (a : Char) (x : List Char) (h : ('r' == a) = false) :
    isResultsChip (a :: x) = false := by
  show List.isPrefixOf (js "results: ") (a :: x) = false
  rw [show js "results: " = 'r' :: js "esults: " from rfl]
  simp only [List.isPrefixOf]
  simp [h]

theorem isResultsChip_append (x : List Char) :
    isResultsChip (js "results: " ++ x) = true :=
  List.isPrefixOf_iff_prefix.mpr (List.prefix_append _ _)

theorem any_typeChip (args : ArgumentSet) :
    (typeChip args).any isResultsChip = false := by
  unfold typeChip
  split
  · simp only [List.any_cons, List.any_nil, Bool.or_false]
    exact isResultsChip_cons 't'
      (js "ype: " ++ jsToString (argLookup args (js "type"))) (by decide)
  · rfl

theorem any_categoryChip (args : ArgumentSet) :
    (categoryChip args).any isResultsChip = false := by
  unfold categoryChip
  split
  · simp only [List.any_cons, List.any_nil, Bool.or_false]
    exact isResultsChip_cons 'c'
      (js "ategory: " ++ jsToString (argLookup args (js "category"))) (by decide)
  · rfl

theorem any_domainsChip (args : ArgumentSet) :
    (domainsChip args).any isResultsChip = false := by
  unfold domainsChip
  split
  · simp only [List.any_cons, List.any_nil, Bool.or_false]
    exact isResultsChip_cons 'd'
      (js "omains: " ++ jsJoin (js ", ") (argLookup args (js "includeDomains")))
      (by decide)
  · rfl

theorem any_dateChip (args : ArgumentSet) :
    (dateChip args).any isResultsChip = false := by
  unfold dateChip
  split
  · decide
  · rfl

theorem any_numResultsChip (args : ArgumentSet) :
    (numResultsChip args).any isResultsChip =
      (jsTruthy (argLookup args (js "numResults"))
        && !(argLookup args (js "numResults") == some (Value.vNum 5))) := by
  unfold numResultsChip
  split
  · next h =>
      simp only [List.any_cons, List.any_nil, Bool.or_false, isResultsChip_append, h]
  · next h =>
      simp only [List.any_nil]
      exact (Bool.eq_false_iff.mpr h).symm

theorem any_summary (args : ArgumentSet) :
    (getParamsSummary args).any isResultsChip =
      (jsTruthy (argLookup args (js "numResults"))
        && !(argLookup args (js "numResults") == some (Value.vNum 5))) := by
  unfold getParamsSummary
  simp [List.any_append, any_typeChip, any_categoryChip, any_domainsChip,
    any_dateChip, any_numResultsChip]

/-- C9 amended: the numResults chip appears exactly when the stored
numResults is truthy (present, non-zero, non-null) and differs from the
default 5; numResults = 10 renders as "results: 10"; 5 never appears. -/
theorem c9_amended_chip (args : ArgumentSet) :
    ((getParamsSummary args).any isResultsChip =
      (jsTruthy (argLookup args (js "numResults"))
        && !(argLookup args (js "numResults") == some (Value.vNum 5)))) ∧
    (argLookup args (js "numResults") = some (Value.vNum 10) →
      js "results: 10" ∈ getParamsSummary args) ∧
    (argLookup args (js "numResults") = some (Value.vNum 5) →
      (getParamsSummary args).any isResultsChip = false) := by
  refine ⟨any_summary args, ?_, ?_⟩
  · intro h
    have hc : numResultsChip args = [js "results: 10"] := by
      unfold numResultsChip
      rw [h]
      decide
    unfold getParamsSummary
    simp [hc, List.mem_append]
  · intro h
    rw [any_summary args, h]
    decide


/-- C9 counterexample: numResults = 0 differs from the descriptor default 5,
yet the collapsed-view summary contains no numResults chip (the source also
requires JavaScript truthiness, which 0 fails). -/
theorem c9_zero_no_chip :
    argLookup c9ZeroArgs (js "numResults") = some (Value.vNum 0) ∧
    (Value.vNum 0 == Value.vNum 5) = false ∧
    (getParamsSummary c9ZeroArgs).any isResultsChip = false := by decide


/-- C1: at a result of length 2500 the expanded panel shows the first 2000
characters followed by the truncation span, but the span's text is the
source's braced expression rendered VERBATIM (a plain string literal), and
in particular never contains the omitted-character count "500". -/
theorem c1_truncation_literal :
    resultPanelText c1Result = List.replicate 2000 'x' ++ truncationNotice ∧
    jsIncludes truncationNotice (js "500") = false ∧
    jsIncludes truncationNotice (js "\x7bresult.length - 2000\x7d") = true := by
  refine ⟨?_, by decide, by decide⟩
  unfold resultPanelText c1Result
  rw [if_pos (by rw [List.length_replicate]; norm_num), List.take_replicate]
  norm_num


theorem runEvents_append (h : Bool) (p : PanelState) (xs ys : List PanelEvent) :
    runEvents h p (xs ++ ys) =
      ((runEvents h (runEvents h p xs).1 ys).1,
        (runEvents h p xs).2 ++ (runEvents h (runEvents h p xs).1 ys).2) := by
  induction xs generalizing p with
  | nil => simp [runEvents]
  | cons e es ih => simp [runEvents, ih]

theorem runEvents_upstream_only (h : Bool) (p : PanelState)
    (es : List PanelEvent) (hclean : p.card.hasUnsavedChanges = false)
    (hes : ∀ e ∈ es, ∃ a, e = PanelEvent.upstreamArgs a) :
    (runEvents h p es).1.card.hasUnsavedChanges = false ∧
    (runEvents h p es).2 = [] := by
  induction es generalizing p with
  | nil => simpa [runEvents] using hclean
  | cons e es ih =>
    obtain ⟨a, rfl⟩ := hes e (List.mem_cons_self e es)
    have hstep : stepEvent h p (PanelEvent.upstreamArgs a)
        = ({ p with card := syncUpstreamArgs p.card a }, []) := rfl
    have hsync : (syncUpstreamArgs p.card a).hasUnsavedChanges = false := by
      unfold syncUpstreamArgs
      rw [hclean]
      simp [hclean]
    have hrest := ih { p with card := syncUpstreamArgs p.card a } hsync
      (fun e he => hes e (List.mem_cons_of_mem _ he))
    simpa [runEvents, hstep] using hrest

theorem toggleEditMode_clean (h : Bool) (q : PanelState)
    (hclean : q.card.hasUnsavedChanges = false) :
    (toggleEditMode h q).2 = [] := by
  unfold toggleEditMode handleDoneEditing
  cases hq : q.editMode <;> simp [hq, hclean]

/-- C10: a re-run dispatch (manual or via done-editing) clears the dirty
flag, so clicking the manual re-run and then exiting edit mode with no
intervening parameter change dispatches exactly once. -/
theorem c10_single_dispatch (p : PanelState) (s : CardState)
    (mid : List PanelEvent)
    (hmid : ∀ e ∈ mid, ∃ a, e = PanelEvent.upstreamArgs a)
    (_hedit : p.editMode = true) :
    (handleRerun true s).1.hasUnsavedChanges = false ∧
    (handleDoneEditing true s).1.hasUnsavedChanges = false ∧
    (runEvents true p
      (PanelEvent.rerunClick :: (mid ++ [PanelEvent.toggleEdit]))).2
      = [p.card.editedArgs] := by
  refine ⟨by simp [handleRerun], ?_, ?_⟩
  · unfold handleDoneEditing handleRerun
    cases hs : s.hasUnsavedChanges <;> simp [hs]
  · have hstep : stepEvent true p PanelEvent.rerunClick
        = ({ p with card := { p.card with hasUnsavedChanges := false } },
           [p.card.editedArgs]) := by
      simp [stepEvent, handleRerun]
    set p1 : PanelState :=
      { p with card := { p.card with hasUnsavedChanges := false } } with hp1
    have hclean1 : p1.card.hasUnsavedChanges = false := rfl
    have hmidrun := runEvents_upstream_only true p1 mid hclean1 hmid
    have htoggle := toggleEditMode_clean true (runEvents true p1 mid).1
      hmidrun.1
    have : runEvents true p1 (mid ++ [PanelEvent.toggleEdit])
        = ((runEvents true (runEvents true p1 mid).1 [PanelEvent.toggleEdit]).1,
          (runEvents true p1 mid).2
            ++ (runEvents true (runEvents true p1 mid).1
                [PanelEvent.toggleEdit]).2) := runEvents_append _ _ _ _
    rw [runEvents, hstep]
    rw [this, hmidrun.2]
    have hsingle : (runEvents true (runEvents true p1 mid).1
        [PanelEvent.toggleEdit]).2 = [] := by
      rw [runEvents, runEvents]
      simpa using htoggle
    rw [hsingle]
    rfl

/-- C2 witness: the dirty/clean sync behaviour at concrete states. -/
theorem c2_witness :
    syncUpstreamArgs wCardDirty wArgsB = wCardDirty ∧
    (syncUpstreamArgs wCardClean wArgsB).editedArgs = wArgsB :=
  ⟨(c2_upstream_sync wCardDirty wArgsB).1 rfl,
   (c2_upstream_sync wCardClean wArgsB).2 rfl⟩

/-- C3 witness: the mapper on a concrete static and dynamic part. -/
theorem c3_witness :
    getToolInvocations [c3Part, wDynPart] =
      (([c3Part, wDynPart].filter (fun r => jsStartsWith r.type (js "tool-")
          || r.type == js "dynamic-tool")).map mapToolPart) ∧
    (mapToolPart c3Part).toolName = some (c3Part.type.drop 5) ∧
    (mapToolPart wDynPart).toolName = wDynPart.toolName ∧
    (mapToolPart c3Part).toolName = some (js "exa_search") ∧
    getToolStatus (mapToolPart c3Part).state = js "running" :=
  c3_mapper [c3Part, wDynPart] c3Part wDynPart (by decide) rfl

/-- C4 witness: the array round trip at concrete inputs. -/
theorem c4_witness :
    argLookup (arrayInputChange [] (js "includeDomains") (js "a, b, b"))
      (js "includeDomains") = some (Value.vArr [js "a", js "b", js "b"]) ∧
    argLookup (arrayInputChange [(js "includeDomains", Value.vArr [js "a"])]
      (js "includeDomains") (js " , ,")) (js "includeDomains") = none :=
  ⟨(c4_array_roundtrip [] (js "includeDomains") (js " , ,") (by decide)).1,
   (c4_array_roundtrip [(js "includeDomains", Value.vArr [js "a"])]
      (js "includeDomains") (js " , ,") (by decide)).2⟩

/-- C5 witness: 0 and false are used, the empty string is unused. -/
theorem c5_witness :
    isParamUsed [(js "numResults", Value.vNum 0)] (js "numResults") = true ∧
    isParamUsed [(js "text", Value.vBool false)] (js "text") = true ∧
    isParamUsed [(js "category", Value.vStr [])] (js "category") = false :=
  ⟨(c5_unused_classification [(js "numResults", Value.vNum 0)]
      (js "numResults")).2.2 (by decide),
   (c5_unused_classification [(js "text", Value.vBool false)]
      (js "text")).2.1 (by decide),
   (c5_unused_classification [(js "category", Value.vStr [])]
      (js "category")).1.mpr (Or.inr (Or.inr (by decide)))⟩

/-- C6 witness: the projection at one string of each class. -/
theorem c6_witness :
    getToolStatus (some (js "input-available")) = js "running" ∧
    getToolStatus (some (js "output-available")) = js "completed" ∧
    getToolStatus (some (js "output-error")) = js "error" ∧
    getToolStatus (some (js "finesse")) = js "pending" :=
  ⟨(c6_status_projection (js "input-available")).1 (Or.inr rfl),
   (c6_status_projection (js "output-available")).2.1 rfl,
   (c6_status_projection (js "output-error")).2.2.1 rfl,
   (c6_status_projection (js "finesse")).2.2.2
     (by decide) (by decide) (by decide) (by decide)⟩

/-- C7 witness: the double toggle at a concrete clean card. -/
theorem c7_witness :
    (toggleEditMode true (toggleEditMode true wPanelClean).1).1.card
      = wPanelClean.card ∧
    (toggleEditMode true wPanelClean).2 = [] ∧
    (toggleEditMode true (toggleEditMode true wPanelClean).1).2 = [] :=
  c7_toggle_noop true wPanelClean rfl rfl

/-- C8 witness: the dynamic-tool part with no input maps to empty arguments
and the pending status. -/
theorem c8_witness :
    (mapToolPart wDynPart).args = [] ∧
    (mapToolPart wDynPart).result = wDynPart.output ∧
    (mapToolPart wDynPart).errorText = wDynPart.errorText ∧
    getToolStatus (mapToolPart wDynPart).state = js "pending" :=
  ⟨(c8_safe_defaults wDynPart rfl).1,
   (c8_safe_defaults wDynPart rfl).2.1,
   (c8_safe_defaults wDynPart rfl).2.2.1,
   (c8_safe_defaults wDynPart rfl).2.2.2 rfl⟩

/-- C9 witness: numResults = 10 appears as "results: 10", numResults = 5
never appears. -/
theorem c9_witness :
    js "results: 10" ∈ getParamsSummary wTenArgs ∧
    (getParamsSummary wFiveArgs).any isResultsChip = false ∧
    (getParamsSummary wTenArgs).any isResultsChip = true :=
  ⟨(c9_amended_chip wTenArgs).2.1 (by decide),
   (c9_amended_chip wFiveArgs).2.2 (by decide),
   by rw [(c9_amended_chip wTenArgs).1]; decide⟩

/-- C10 witness: one concrete run of click-re-run, receive an upstream
update, exit edit mode: exactly one dispatch. -/
theorem c10_witness :
    (handleRerun true wCardDirty).1.hasUnsavedChanges = false ∧
    (handleDoneEditing true wCardDirty).1.hasUnsavedChanges = false ∧
    (runEvents true wPanelEdit
      (PanelEvent.rerunClick
        :: ([PanelEvent.upstreamArgs wArgsB] ++ [PanelEvent.toggleEdit]))).2
      = [wPanelEdit.card.editedArgs] :=
  c10_single_dispatch wPanelEdit wCardDirty [PanelEvent.upstreamArgs wArgsB]
    (fun e he => ⟨wArgsB, by simpa using he⟩) rfl

end AISearch
